import Mathlib

/-!
Device / multicast-group membership store.

A shallow embedding of `internal/storage/device_multicast_group.go`: the five
operations over the table `device_multicast_group`, written as state-passing
functions over a `World` (the committed rows of the table, the log, the clock and
the trace of calls made on the database handle).

The relational engine, `database/sql` and `sqlx` are libraries: each call the
source makes on them is a definition below (`Exec`, `Beginx`, `Preparex`, ...),
with the `err` value the Go call may return taken from a `Faults` record, so
that every `if err != nil` branch of the source is reachable.
-/

namespace Storage

/-! ## Data model -/

/-- Device key, `lorawan.EUI64`: eight bytes, read as a number. Only equality of
keys is ever used. -/
abbrev EUI64 := Nat

/-- Group key, `uuid.UUID`: sixteen bytes, read as a number. -/
abbrev UUID := Nat

/-- A value of `time.Time`. -/
abbrev Time := Nat

/-- One row of `device_multicast_group`, with the three columns the statements of
the source name. -/
structure Row where
  dev_eui : EUI64
  multicast_group_id : UUID
  created_at : Time
deriving DecidableEq, Repr

/-- A failure as the storage layer reports it (the `err` of a `database/sql` call). -/
inductive PSQLErr where
  /-- The engine rejects an insert that would repeat `(dev_eui, multicast_group_id)`. -/
  | unique_violation
  /-- The value `sql.ErrNoRows`. -/
  | no_rows
  /-- The error of a call made under a context that is done. -/
  | canceled
  /-- Any other failure: connection, syntax, timeout, transaction. -/
  | other (code : Nat)
deriving DecidableEq, Repr

/-- The errors the operations return to their caller. -/
inductive StorageError where
  | Conflict
  | NotFound
  | Storage (description : String) (cause : PSQLErr)
deriving DecidableEq, Repr

/-- The package value `ErrDoesNotExist` returned by `RemoveDeviceFromMulticastGroup`. -/
def ErrDoesNotExist : StorageError := StorageError.NotFound

/-- Modelled from the spec: `handlePSQLError` is defined elsewhere in package
`storage` and is not part of the source file. Section 4.6 and section 7: a
violated unique constraint becomes the Conflict classification, "no rows" becomes
NotFound, and every other failure becomes a Storage error that wraps the original
failure with the label of the failing step. -/
def handlePSQLError (err : PSQLErr) (description : String) : StorageError :=
  match err with
  | PSQLErr.unique_violation => StorageError.Conflict
  | PSQLErr.no_rows => StorageError.NotFound
  | e => StorageError.Storage description e

/-- The part of `context.Context` the operations can observe: the value stored
under `logging.ContextIDKey`, and whether the context is cancelled or past its
deadline. -/
structure Context where
  ctx_id : Option Nat
  done : Bool
deriving DecidableEq, Repr

/-- The value `context.Background()`: never done, carries no value. -/
def Context.Background : Context := ⟨none, false⟩

/-- One `log.WithFields(...).Info(msg)` event. -/
structure LogEntry where
  dev_eui : EUI64
  multicast_group_id : UUID
  ctx_id : Option Nat
  msg : String
deriving DecidableEq, Repr

/-- The calls the operations make on the database handle, transaction and statement. -/
inductive Op where
  | Exec
  | Select
  | Beginx
  | Preparex
  | StmtExec
  | StmtClose
  | Commit
  | Rollback
deriving DecidableEq, Repr

/-- A call on the storage layer together with the context it runs under. -/
structure Call where
  op : Op
  ctx : Context
deriving DecidableEq, Repr

/-- The `err` each storage call of one operation returns when it reaches the
driver: `none` is `err == nil`. `stmt_exec i` is the outcome of the `i`-th
`stmt.Exec` of a batch, counted from zero. -/
structure Faults where
  exec : Option PSQLErr
  rows_affected : Option PSQLErr
  select : Option PSQLErr
  beginx : Option PSQLErr
  preparex : Option PSQLErr
  stmt_exec : Nat → Option PSQLErr
  stmt_close : Option PSQLErr
  commit : Option PSQLErr
  rollback : Option PSQLErr

/-- A connection on which every call succeeds. -/
def Faults.ok : Faults :=
  ⟨none, none, none, none, none, fun _ => none, none, none, none⟩

/-- The same outcomes, but with `tx.Rollback()` returning `r`. -/
def Faults.withRollback (f : Faults) (r : Option PSQLErr) : Faults :=
  { f with rollback := r }

/-- Everything the operations read or change. -/
structure World where
  /-- Committed rows of `device_multicast_group`. -/
  table : List Row
  /-- Events given to the logging sink, oldest first. -/
  log : List LogEntry
  /-- What the next `time.Now()` returns. -/
  clock : Time
  /-- Storage calls made so far, oldest first. -/
  calls : List Call
deriving DecidableEq, Repr

/-- The effect of one `time.Now()` on the clock: time moves on. -/
def tick (w : World) : World := { w with clock := w.clock + 1 }

/-- Hands one event to the logging sink. -/
def logInfo (e : LogEntry) (w : World) : World := { w with log := w.log ++ [e] }

/-- Appends a storage call to the trace. -/
def record (op : Op) (ctx : Context) (w : World) : World :=
  { w with calls := w.calls ++ [⟨op, ctx⟩] }

/-! ## The statements of the source, on a list of rows -/

/-- The condition `dev_eui = $1 and multicast_group_id = $2`. -/
def sameKey (d : EUI64) (g : UUID) (r : Row) : Bool :=
  r.dev_eui == d && r.multicast_group_id == g

/-- The key columns of every row, in table order. -/
def keys (t : List Row) : List (EUI64 × UUID) :=
  t.map fun r => (r.dev_eui, r.multicast_group_id)

/-- The unique constraint on `(dev_eui, multicast_group_id)`, which the
`on conflict(dev_eui,multicast_group_id)` clause of the source relies on. -/
def Unique (t : List Row) : Prop := (keys t).Nodup

instance (t : List Row) : Decidable (Unique t) := by
  unfold Unique; infer_instance

/-- The statements the source sends. -/
inductive Statement where
  /-- Statement `insert into device_multicast_group (...) values ($1, $2, $3)`. -/
  | insert (d : EUI64) (g : UUID) (created_at : Time)
  /-- The same insert followed by
  `on conflict(dev_eui,multicast_group_id) do update set created_at = $4`. -/
  | upsert (d : EUI64) (g : UUID) (created_at : Time) (updated : Time)
  /-- Statement `delete from device_multicast_group where dev_eui = $1 and
  multicast_group_id = $2`. -/
  | delete (d : EUI64) (g : UUID)
deriving DecidableEq, Repr

/-- Plain insert: rejected when the pair is already there. -/
def sqlInsert (t : List Row) (d : EUI64) (g : UUID) (ts : Time) : Except PSQLErr (List Row) :=
  if t.any (sameKey d g) then Except.error PSQLErr.unique_violation
  else Except.ok (t ++ [⟨d, g, ts⟩])

/-- Insert, or refresh `created_at` of the row already there. -/
def sqlUpsert (t : List Row) (d : EUI64) (g : UUID) (ts ts' : Time) : List Row :=
  if t.any (sameKey d g) then
    t.map fun r => if sameKey d g r then { r with created_at := ts' } else r
  else t ++ [⟨d, g, ts⟩]

/-- Delete of the matching rows. -/
def sqlDelete (t : List Row) (d : EUI64) (g : UUID) : List Row :=
  t.filter fun r => !sameKey d g r

/-- The rows left by a statement and the number of rows it affected. -/
def Statement.run : Statement → List Row → Except PSQLErr (List Row × Nat)
  | Statement.insert d g ts, t =>
    match sqlInsert t d g ts with
    | Except.error e => Except.error e
    | Except.ok t' => Except.ok (t', 1)
  | Statement.upsert d g ts ts', t => Except.ok (sqlUpsert t d g ts ts', 1)
  | Statement.delete d g, t => Except.ok (sqlDelete t d g, t.countP (sameKey d g))

/-! ## The library calls -/

/-- What a call that takes a context returns before the statement runs: the
context's error when the context is done, else what the connection reports. -/
def outcome (ctx : Context) (fault : Option PSQLErr) : Option PSQLErr :=
  if ctx.done then some PSQLErr.canceled else fault

/-- The call `db.ExecContext(ctx, query, args...)`; the result is the affected-row count. -/
def ExecContext (ctx : Context) (f : Faults) (s : Statement) (w : World) :
    Except PSQLErr Nat × World :=
  let w := record Op.Exec ctx w
  match outcome ctx f.exec with
  | some e => (Except.error e, w)
  | none =>
    match s.run w.table with
    | Except.error e => (Except.error e, w)
    | Except.ok (t, n) => (Except.ok n, { w with table := t })

/-- The call `db.Exec(query, args...)`, which `database/sql` runs under the
background context. -/
def Exec (f : Faults) (s : Statement) (w : World) : Except PSQLErr Nat × World :=
  ExecContext Context.Background f s w

/-- The call `res.RowsAffected()`. -/
def RowsAffected (f : Faults) (res : Nat) : Except PSQLErr Nat :=
  match f.rows_affected with
  | some e => Except.error e
  | none => Except.ok res

/-- The call `sqlx.SelectContext(ctx, db, &out, query, args...)` for a query that
reads column `col` of the rows satisfying `cond`. The queries of the source have
no `order by`, so the engine is free in the order of the result; table order is
one such order, and the theorems below speak of membership only. -/
def SelectContext {α : Type} (ctx : Context) (f : Faults) (cond : Row → Bool) (col : Row → α)
    (w : World) : Except PSQLErr (List α) × World :=
  let w := record Op.Select ctx w
  match outcome ctx f.select with
  | some e => (Except.error e, w)
  | none => (Except.ok ((w.table.filter cond).map col), w)

/-- The call `sqlx.Select(db, &out, query, args...)`: a query under the background context. -/
def Select {α : Type} (f : Faults) (cond : Row → Bool) (col : Row → α) (w : World) :
    Except PSQLErr (List α) × World :=
  SelectContext Context.Background f cond col w

/-- An open transaction: the context it was begun under and its working copy of
the table, which other sessions do not see until commit. -/
structure Tx where
  ctx : Context
  rows : List Row
deriving DecidableEq, Repr

/-- The call `db.BeginTxx(ctx, nil)`. -/
def BeginTxx (ctx : Context) (f : Faults) (w : World) : Except PSQLErr Tx × World :=
  let w := record Op.Beginx ctx w
  match outcome ctx f.beginx with
  | some e => (Except.error e, w)
  | none => (Except.ok ⟨ctx, w.table⟩, w)

/-- The call `db.Beginx()`: a transaction of the background context. -/
def Beginx (f : Faults) (w : World) : Except PSQLErr Tx × World :=
  BeginTxx Context.Background f w

/-- The call `tx.PreparexContext(ctx, query)`. -/
def PreparexContext (ctx : Context) (f : Faults) (w : World) : Option PSQLErr × World :=
  (outcome ctx f.preparex, record Op.Preparex ctx w)

/-- The call `tx.Preparex(query)`. -/
def Preparex (f : Faults) (w : World) : Option PSQLErr × World :=
  PreparexContext Context.Background f w

/-- The call `stmt.ExecContext(ctx, args...)` of a statement prepared in `tx`:
it works on the rows of the transaction. -/
def Stmt_ExecContext (ctx : Context) (fault : Option PSQLErr) (tx : Tx) (s : Statement)
    (w : World) : Except PSQLErr Nat × Tx × World :=
  let w := record Op.StmtExec ctx w
  match outcome ctx fault with
  | some e => (Except.error e, tx, w)
  | none =>
    match s.run tx.rows with
    | Except.error e => (Except.error e, tx, w)
    | Except.ok (t, n) => (Except.ok n, { tx with rows := t }, w)

/-- The call `stmt.Exec(args...)`. -/
def Stmt_Exec (fault : Option PSQLErr) (tx : Tx) (s : Statement) (w : World) :
    Except PSQLErr Nat × Tx × World :=
  Stmt_ExecContext Context.Background fault tx s w

/-- The call `stmt.Close()`. -/
def Stmt_Close (f : Faults) (w : World) : Option PSQLErr × World :=
  (f.stmt_close, record Op.StmtClose Context.Background w)

/-- The call `tx.Commit()`: on success the rows of the transaction become the table. -/
def Commit (f : Faults) (tx : Tx) (w : World) : Option PSQLErr × World :=
  let w := record Op.Commit tx.ctx w
  match outcome tx.ctx f.commit with
  | some e => (some e, w)
  | none => (none, { w with table := tx.rows })

/-- The call `tx.Rollback()`: the rows of the transaction are dropped, whatever it returns. -/
def Rollback (f : Faults) (tx : Tx) (w : World) : Option PSQLErr × World :=
  (outcome tx.ctx f.rollback, record Op.Rollback tx.ctx w)

/-! ## The five operations -/

/-- Embedding of `AddDeviceToMulticastGroup`. -/
def AddDeviceToMulticastGroup (ctx : Context) (f : Faults) (devEUI : EUI64)
    (multicastGroupID : UUID) (w : World) : Option StorageError × World :=
  let now := w.clock
  let w := tick w
  match Exec f (Statement.insert devEUI multicastGroupID now) w with
  | (Except.error err, w) => (some (handlePSQLError err "insert error"), w)
  | (Except.ok _, w) =>
    (none, logInfo ⟨devEUI, multicastGroupID, ctx.ctx_id, "device added to multicast-group"⟩ w)

/-- The `for _, devEUI := range devEUIs` loop of `BatchAddDeviceToMulticastGroup`;
`i` counts the iterations done. A result `some e` is the early `return` of the
function from inside the loop. -/
def batchLoop (ctx : Context) (f : Faults) (multicastGroupID : UUID) :
    List EUI64 → Nat → Tx → World → Option StorageError × Tx × World
  | [], _, tx, w => (none, tx, w)
  | devEUI :: rest, i, tx, w =>
    let t1 := w.clock
    let w := tick w
    let t2 := w.clock
    let w := tick w
    match Stmt_Exec (f.stmt_exec i) tx (Statement.upsert devEUI multicastGroupID t1 t2) w with
    | (Except.error err, tx, w) =>
      let w := (Stmt_Close f w).2
      let w := (Rollback f tx w).2
      (some (handlePSQLError err "insert or update error"), tx, w)
    | (Except.ok _, tx, w) =>
      batchLoop ctx f multicastGroupID rest (i + 1) tx
        (logInfo ⟨devEUI, multicastGroupID, ctx.ctx_id, "device added to multicast-group"⟩ w)

/-- Embedding of `BatchAddDeviceToMulticastGroup`. -/
def BatchAddDeviceToMulticastGroup (ctx : Context) (f : Faults) (devEUIs : List EUI64)
    (multicastGroupID : UUID) (w : World) : Option StorageError × World :=
  match Beginx f w with
  | (Except.error err, w) => (some (handlePSQLError err "Beginx error"), w)
  | (Except.ok tx, w) =>
    match Preparex f w with
    | (some err, w) =>
      let w := (Rollback f tx w).2
      (some (handlePSQLError err "Preparex error"), w)
    | (none, w) =>
      match batchLoop ctx f multicastGroupID devEUIs 0 tx w with
      | (some e, _, w) => (some e, w)
      | (none, tx, w) =>
        match Stmt_Close f w with
        | (some err, w) =>
          let w := (Rollback f tx w).2
          (some (handlePSQLError err "stmt close error"), w)
        | (none, w) =>
          match Commit f tx w with
          | (some err, w) =>
            let w := (Rollback f tx w).2
            (some (handlePSQLError err "tx commit error"), w)
          | (none, w) => (none, w)

/-- Embedding of `RemoveDeviceFromMulticastGroup`. -/
def RemoveDeviceFromMulticastGroup (ctx : Context) (f : Faults) (devEUI : EUI64)
    (multicastGroupID : UUID) (w : World) : Option StorageError × World :=
  match Exec f (Statement.delete devEUI multicastGroupID) w with
  | (Except.error err, w) => (some (handlePSQLError err "delete error"), w)
  | (Except.ok res, w) =>
    match RowsAffected f res with
    | Except.error err => (some (handlePSQLError err "get rows affected error"), w)
    | Except.ok ra =>
      if ra = 0 then (some ErrDoesNotExist, w)
      else
        (none,
          logInfo ⟨devEUI, multicastGroupID, ctx.ctx_id, "device removed from multicast-group"⟩ w)

/-- Embedding of `GetMulticastGroupsForDevEUI`; the slice `nil` is the empty list. -/
def GetMulticastGroupsForDevEUI (_ctx : Context) (f : Faults) (devEUI : EUI64) (w : World) :
    (List UUID × Option StorageError) × World :=
  match Select f (fun r => r.dev_eui == devEUI) (fun r => r.multicast_group_id) w with
  | (Except.error err, w) => (([], some (handlePSQLError err "select error")), w)
  | (Except.ok out, w) => ((out, none), w)

/-- Embedding of `GetDevEUIsForMulticastGroup`. -/
def GetDevEUIsForMulticastGroup (_ctx : Context) (f : Faults) (multicastGroupID : UUID)
    (w : World) : (List EUI64 × Option StorageError) × World :=
  match Select f (fun r => r.multicast_group_id == multicastGroupID) (fun r => r.dev_eui) w with
  | (Except.error err, w) => (([], some (handlePSQLError err "select error")), w)
  | (Except.ok out, w) => ((out, none), w)

/-- An empty table, an empty log, no call made yet. -/
def World.empty : World := ⟨[], [], 0, []⟩

/-- A live context with correlation id 42. -/
def ctxLive : Context := ⟨some 42, false⟩

/-- The same context after cancellation. -/
def ctxCancelled : Context := ⟨some 42, true⟩

/-- Adding the keys `(d, G)`, `d` from `D`, to a list of keys, each once: what a
run of upserts does to the key columns. -/
def addKeys (G : UUID) : List EUI64 → List (EUI64 × UUID) → List (EUI64 × UUID)
  | [], ks => ks
  | d :: ds, ks => addKeys G ds (if (d, G) ∈ ks then ks else ks ++ [(d, G)])

/-- The rows of a transaction after the upserts of a batch that started at clock `c`. -/
def upsertAll (G : UUID) : List EUI64 → Time → List Row → List Row
  | [], _, t => t
  | d :: ds, c, t => upsertAll G ds (c + 2) (sqlUpsert t d G c (c + 1))

/-- The log events of a batch. -/
def batchLog (ctx : Context) (G : UUID) (D : List EUI64) : List LogEntry :=
  D.map fun d => ⟨d, G, ctx.ctx_id, "device added to multicast-group"⟩

/-- No step of a batch over `n` device keys fails. -/
def NoFault (f : Faults) (n : Nat) : Prop :=
  f.beginx = none ∧ f.preparex = none ∧ (∀ i < n, f.stmt_exec i = none) ∧
    f.stmt_close = none ∧ f.commit = none

instance (f : Faults) (n : Nat) : Decidable (NoFault f n) := by
  unfold NoFault; infer_instance

/-- The world in which the loop of a batch starts. -/
def loopStart (w : World) : World :=
  record Op.Preparex Context.Background (record Op.Beginx Context.Background w)

/-- The steps of a batch after which the source rolls back. -/
inductive Step where
  | prepare
  | exec (k : Nat)
  | close
  | commit
deriving DecidableEq, Repr

/-- The label the source gives `handlePSQLError` at each step. -/
def Step.label : Step → String
  | Step.prepare => "Preparex error"
  | Step.exec _ => "insert or update error"
  | Step.close => "stmt close error"
  | Step.commit => "tx commit error"

/-- In a batch over `n` device keys, step `s` is reached (every step before it
succeeds) and fails with `e`. -/
def FailsAt (f : Faults) (n : Nat) (s : Step) (e : PSQLErr) : Prop :=
  f.beginx = none ∧
    match s with
    | Step.prepare => f.preparex = some e
    | Step.exec k =>
      f.preparex = none ∧ k < n ∧ (∀ j < k, f.stmt_exec j = none) ∧ f.stmt_exec k = some e
    | Step.close => f.preparex = none ∧ (∀ j < n, f.stmt_exec j = none) ∧ f.stmt_close = some e
    | Step.commit =>
      f.preparex = none ∧ (∀ j < n, f.stmt_exec j = none) ∧ f.stmt_close = none ∧
        f.commit = some e

instance (f : Faults) (n : Nat) (s : Step) (e : PSQLErr) : Decidable (FailsAt f n s e) := by
  unfold FailsAt; cases s <;> infer_instance

/-- The second of three upserts fails and the rollback fails as well. -/
def faultsSecondUpsert : Faults :=
  { Faults.ok with
    stmt_exec := fun i => if i = 1 then some (PSQLErr.other 3) else none
    rollback := some (PSQLErr.other 9) }

/-- A table holding one membership of another group. -/
def worldOne : World := ⟨[⟨5, 8, 0⟩], [], 1, []⟩

/-- Connection on which `db.Beginx()` fails. -/
def faultsBegin : Faults := { Faults.ok with beginx := some (PSQLErr.other 1) }

/-- Connection on which `tx.Commit()` fails and the rollback after it fails too. -/
def faultsCommit : Faults :=
  { Faults.ok with commit := some (PSQLErr.other 4), rollback := some (PSQLErr.other 9) }

/-- Connection on which the single statement of `db.Exec` fails. -/
def faultsExec : Faults := { Faults.ok with exec := some (PSQLErr.other 2) }

/-- Connection on which the query of `sqlx.Select` fails. -/
def faultsSelect : Faults := { Faults.ok with select := some (PSQLErr.other 2) }

/-- A table holding the membership of device 1 in group 7. -/
def worldMember : World := ⟨[⟨1, 7, 0⟩], [], 1, []⟩

/-! ## Lemmas on the statements -/

@[simp] theorem outcome_background (x : Option PSQLErr) : outcome Context.Background x = x := by
  simp [outcome, Context.Background]

theorem getLast?_of_snoc {α : Type} (L : List α) (r : α) (h : ∃ l, L = l ++ [r]) :
    L.getLast? = some r := by
  obtain ⟨l, rfl⟩ := h
  exact List.getLast?_concat l

theorem any_sameKey_iff (t : List Row) (d : EUI64) (g : UUID) :
    t.any (sameKey d g) = true ↔ (d, g) ∈ keys t := by
  simp only [List.any_eq_true, keys, List.mem_map, sameKey, Bool.and_eq_true, beq_iff_eq,
    Prod.mk.injEq]

theorem countP_sameKey (t : List Row) (d : EUI64) (g : UUID) :
    t.countP (sameKey d g) = (keys t).count (d, g) := by
  induction t with
  | nil => rfl
  | cons r t ih =>
    simp only [keys, List.map_cons, List.countP_cons, List.count_cons] at ih ⊢
    rw [ih]
    congr 1

theorem keys_sqlUpsert (t : List Row) (d : EUI64) (g : UUID) (a b : Time) :
    keys (sqlUpsert t d g a b) = if (d, g) ∈ keys t then keys t else keys t ++ [(d, g)] := by
  unfold sqlUpsert
  by_cases h : (d, g) ∈ keys t
  · rw [if_pos ((any_sameKey_iff t d g).2 h), if_pos h]
    simp only [keys, List.map_map]
    apply List.map_congr_left
    intro r _
    by_cases hr : sameKey d g r = true <;> simp [hr]
  · have h' : ¬ (t.any (sameKey d g) = true) := fun hh => h ((any_sameKey_iff t d g).1 hh)
    rw [if_neg h', if_neg h]
    simp [keys]

theorem keys_upsertAll (G : UUID) (D : List EUI64) (c : Time) (t : List Row) :
    keys (upsertAll G D c t) = addKeys G D (keys t) := by
  induction D generalizing c t with
  | nil => rfl
  | cons d ds ih => simp only [upsertAll, addKeys, ih, keys_sqlUpsert]

theorem mem_addKeys (G : UUID) (D : List EUI64) (ks : List (EUI64 × UUID)) (p : EUI64 × UUID) :
    p ∈ addKeys G D ks ↔ p ∈ ks ∨ (p.2 = G ∧ p.1 ∈ D) := by
  induction D generalizing ks with
  | nil => simp [addKeys]
  | cons d ds ih =>
    simp only [addKeys, ih, List.mem_cons]
    by_cases h : (d, G) ∈ ks
    · rw [if_pos h]
      constructor
      · rintro (h1 | ⟨h1, h2⟩)
        · exact Or.inl h1
        · exact Or.inr ⟨h1, Or.inr h2⟩
      · rintro (h1 | ⟨h1, h2 | h2⟩)
        · exact Or.inl h1
        · left
          have : p = (d, G) := Prod.ext h2 h1
          rw [this]; exact h
        · exact Or.inr ⟨h1, h2⟩
    · rw [if_neg h]
      simp only [List.mem_append, List.mem_singleton]
      constructor
      · rintro ((h1 | h1) | ⟨h1, h2⟩)
        · exact Or.inl h1
        · right; rw [h1]; exact ⟨rfl, Or.inl rfl⟩
        · exact Or.inr ⟨h1, Or.inr h2⟩
      · rintro (h1 | ⟨h1, h2 | h2⟩)
        · exact Or.inl (Or.inl h1)
        · exact Or.inl (Or.inr (Prod.ext h2 h1))
        · exact Or.inr ⟨h1, h2⟩

theorem nodup_addKeys (G : UUID) (D : List EUI64) (ks : List (EUI64 × UUID)) (h : ks.Nodup) :
    (addKeys G D ks).Nodup := by
  induction D generalizing ks with
  | nil => exact h
  | cons d ds ih =>
    simp only [addKeys]
    apply ih
    by_cases hm : (d, G) ∈ ks
    · rw [if_pos hm]; exact h
    · rw [if_neg hm]
      exact List.Nodup.append h (List.nodup_singleton _) (by simpa using hm)

theorem addKeys_of_mem (G : UUID) (D : List EUI64) (ks : List (EUI64 × UUID))
    (h : ∀ d ∈ D, (d, G) ∈ ks) : addKeys G D ks = ks := by
  induction D generalizing ks with
  | nil => rfl
  | cons d ds ih =>
    simp only [addKeys]
    rw [if_pos (h d (List.mem_cons_self _ _))]
    exact ih ks fun x hx => h x (List.mem_cons_of_mem _ hx)

/-! The unique constraint is kept by every statement of the source. -/

theorem unique_sqlUpsert (t : List Row) (d : EUI64) (g : UUID) (a b : Time) (h : Unique t) :
    Unique (sqlUpsert t d g a b) := by
  have h2 := nodup_addKeys g [d] (keys t) h
  simpa only [Unique, keys_sqlUpsert, addKeys] using h2

theorem unique_sqlInsert (t t1 : List Row) (d : EUI64) (g : UUID) (a : Time) (h : Unique t)
    (hi : sqlInsert t d g a = Except.ok t1) : Unique t1 := by
  unfold sqlInsert at hi
  by_cases hm : t.any (sameKey d g) = true
  · rw [if_pos hm] at hi
    cases hi
  · rw [if_neg hm] at hi
    cases hi
    have hk : (d, g) ∉ keys t := fun hh => hm ((any_sameKey_iff t d g).2 hh)
    have h2 := nodup_addKeys g [d] (keys t) h
    simp only [addKeys, if_neg hk] at h2
    simpa [Unique, keys] using h2

theorem unique_sqlDelete (t : List Row) (d : EUI64) (g : UUID) (h : Unique t) :
    Unique (sqlDelete t d g) := by
  unfold Unique keys sqlDelete at *
  exact List.Nodup.sublist (List.Sublist.map _ (List.filter_sublist t)) h

theorem count_addKeys (G : UUID) (D : List EUI64) (ks : List (EUI64 × UUID)) (d : EUI64) :
    (addKeys G D ks).count (d, G) =
      if d ∈ D then max 1 (ks.count (d, G)) else ks.count (d, G) := by
  induction D generalizing ks with
  | nil => simp [addKeys]
  | cons x xs ih =>
    simp only [addKeys]
    rw [ih]
    have key : (if (x, G) ∈ ks then ks else ks ++ [(x, G)]).count (d, G) =
        if x = d then max 1 (ks.count (d, G)) else ks.count (d, G) := by
      by_cases hx : x = d
      · subst hx
        by_cases hm : (x, G) ∈ ks
        · have hpos := List.count_pos_iff.2 hm
          rw [if_pos hm, if_pos rfl]
          omega
        · have hz := List.count_eq_zero_of_not_mem hm
          rw [if_neg hm, if_pos rfl, List.count_append, hz]
          simp
      · by_cases hm : (x, G) ∈ ks
        · rw [if_pos hm, if_neg hx]
        · rw [if_neg hm, if_neg hx, List.count_append]
          have : ¬ ((x, G) = (d, G)) := fun h => hx (Prod.mk.inj h).1
          simp [List.count_singleton, this]
    rw [key]
    by_cases hx : x = d <;> by_cases hd : d ∈ xs
    · simp [hx, hd]
    · simp [hx, hd]
    · have hx' : ¬ d = x := fun h => hx h.symm
      simp [hx, hx', hd]
    · have hx' : ¬ d = x := fun h => hx h.symm
      simp [hx, hx', hd]

/-! ## Lemmas on the batch -/

theorem batchLoop_ok (ctx : Context) (f : Faults) (G : UUID) (D : List EUI64) (i : Nat) (tx : Tx)
    (w : World) (h : ∀ j < D.length, f.stmt_exec (i + j) = none) :
    batchLoop ctx f G D i tx w =
      (none, { tx with rows := upsertAll G D w.clock tx.rows },
        { w with
          clock := w.clock + 2 * D.length
          log := w.log ++ batchLog ctx G D
          calls := w.calls ++ List.replicate D.length ⟨Op.StmtExec, Context.Background⟩ }) := by
  induction D generalizing i tx w with
  | nil => simp [batchLoop, upsertAll, batchLog]
  | cons d ds ih =>
    have h0 : f.stmt_exec i = none := by simpa using h 0 (by simp)
    have hs : ∀ j < ds.length, f.stmt_exec (i + 1 + j) = none := by
      intro j hj
      have := h (j + 1) (by simpa using hj)
      rwa [show i + 1 + j = i + (j + 1) by omega]
    simp only [batchLoop, Stmt_Exec, Stmt_ExecContext, h0, outcome_background, Statement.run]
    rw [ih _ _ _ hs]
    simp only [upsertAll, batchLog, tick, record, logInfo, List.replicate_succ, List.map_cons,
      List.length_cons, List.append_assoc, List.singleton_append, Prod.mk.injEq, true_and,
      World.mk.injEq, and_true]
    show (w.clock + 1 + 1 + 2 * ds.length : Nat) = w.clock + 2 * (ds.length + 1)
    ring

theorem batch_ok (ctx : Context) (f : Faults) (D : List EUI64) (G : UUID) (w : World)
    (h : NoFault f D.length) :
    BatchAddDeviceToMulticastGroup ctx f D G w =
      (none,
        { table := upsertAll G D w.clock w.table
          log := w.log ++ batchLog ctx G D
          clock := w.clock + 2 * D.length
          calls := w.calls ++ ⟨Op.Beginx, Context.Background⟩ :: ⟨Op.Preparex, Context.Background⟩ ::
            (List.replicate D.length ⟨Op.StmtExec, Context.Background⟩ ++
              [⟨Op.StmtClose, Context.Background⟩, ⟨Op.Commit, Context.Background⟩]) }) := by
  obtain ⟨hb, hp, he, hc, hm⟩ := h
  have hl := batchLoop_ok ctx f G D 0 ⟨Context.Background, w.table⟩ (loopStart w)
    (by simpa using he)
  simp only [loopStart, record, List.append_assoc, List.singleton_append] at hl
  simp [BatchAddDeviceToMulticastGroup, Beginx, BeginTxx, Preparex, PreparexContext, hb, hp, hl,
    Stmt_Close, hc, Commit, hm, record]

theorem batchLoop_fail (ctx : Context) (f : Faults) (G : UUID) (D : List EUI64) (i k : Nat)
    (tx : Tx) (w : World) (e : PSQLErr) (hk : k < D.length)
    (hlt : ∀ j < k, f.stmt_exec (i + j) = none) (he : f.stmt_exec (i + k) = some e) :
    (batchLoop ctx f G D i tx w).1 = some (handlePSQLError e "insert or update error") := by
  induction D generalizing i k tx w with
  | nil => simp at hk
  | cons d ds ih =>
    cases k with
    | zero =>
      simp only [Nat.add_zero] at he
      simp [batchLoop, Stmt_Exec, Stmt_ExecContext, he]
    | succ k =>
      have h0 : f.stmt_exec i = none := by simpa using hlt 0 (by omega)
      simp only [batchLoop, Stmt_Exec, Stmt_ExecContext, h0, outcome_background, Statement.run]
      apply ih (i + 1) k
      · simpa using hk
      · intro j hj
        have := hlt (j + 1) (by omega)
        rwa [show i + 1 + j = i + (j + 1) by omega]
      · rwa [show i + 1 + k = i + (k + 1) by omega]

theorem batchLoop_table (ctx : Context) (f : Faults) (G : UUID) (D : List EUI64) (i : Nat)
    (tx : Tx) (w : World) : (batchLoop ctx f G D i tx w).2.2.table = w.table := by
  induction D generalizing i tx w with
  | nil => rfl
  | cons d ds ih =>
    cases h : f.stmt_exec i with
    | some e =>
      simp [batchLoop, Stmt_Exec, Stmt_ExecContext, h, Stmt_Close, Rollback, record, tick]
    | none =>
      simp only [batchLoop, Stmt_Exec, Stmt_ExecContext, h, outcome_background, Statement.run]
      rw [ih]
      rfl

theorem batchLoop_ctx (ctx : Context) (f : Faults) (G : UUID) (D : List EUI64) (i : Nat)
    (tx : Tx) (w : World) : (batchLoop ctx f G D i tx w).2.1.ctx = tx.ctx := by
  induction D generalizing i tx w with
  | nil => rfl
  | cons d ds ih =>
    cases h : f.stmt_exec i with
    | some e => simp [batchLoop, Stmt_Exec, Stmt_ExecContext, h]
    | none =>
      simp only [batchLoop, Stmt_Exec, Stmt_ExecContext, h, outcome_background, Statement.run]
      rw [ih]

theorem batchLoop_last_call (ctx : Context) (f : Faults) (G : UUID) (D : List EUI64) (i : Nat)
    (tx : Tx) (w : World) (h : (batchLoop ctx f G D i tx w).1 ≠ none) :
    (batchLoop ctx f G D i tx w).2.2.calls.getLast? = some ⟨Op.Rollback, tx.ctx⟩ := by
  induction D generalizing i tx w with
  | nil => simp [batchLoop] at h
  | cons d ds ih =>
    cases hi : f.stmt_exec i with
    | some e =>
      simp [batchLoop, Stmt_Exec, Stmt_ExecContext, hi, Stmt_Close, Rollback, record]
    | none =>
      simp only [batchLoop, Stmt_Exec, Stmt_ExecContext, hi, outcome_background,
        Statement.run] at h ⊢
      rw [ih _ _ _ h]

theorem batchLoop_withRollback (ctx : Context) (f : Faults) (r : Option PSQLErr) (G : UUID)
    (D : List EUI64) (i : Nat) (tx : Tx) (w : World) :
    batchLoop ctx (f.withRollback r) G D i tx w = batchLoop ctx f G D i tx w := by
  induction D generalizing i tx w with
  | nil => rfl
  | cons d ds ih =>
    cases hi : f.stmt_exec i with
    | some e =>
      simp [batchLoop, Stmt_Exec, Stmt_ExecContext, hi, Stmt_Close, Rollback, record,
        Faults.withRollback]
    | none =>
      have hi' : (f.withRollback r).stmt_exec i = none := hi
      simp only [batchLoop, Stmt_Exec, Stmt_ExecContext, hi, hi', outcome_background,
        Statement.run]
      rw [ih]

theorem batch_withRollback (ctx : Context) (f : Faults) (r : Option PSQLErr) (D : List EUI64)
    (G : UUID) (w : World) :
    BatchAddDeviceToMulticastGroup ctx (f.withRollback r) D G w =
      BatchAddDeviceToMulticastGroup ctx f D G w := by
  simp only [BatchAddDeviceToMulticastGroup, batchLoop_withRollback]
  simp [Faults.withRollback, Beginx, BeginTxx, Preparex, PreparexContext, Rollback, Stmt_Close,
    Commit]

theorem batch_of_loop_fail (ctx : Context) (f : Faults) (D : List EUI64) (G : UUID) (w : World)
    (hb : f.beginx = none) (hp : f.preparex = none) (e : StorageError)
    (hl : (batchLoop ctx f G D 0 ⟨Context.Background, w.table⟩ (loopStart w)).1 = some e) :
    BatchAddDeviceToMulticastGroup ctx f D G w =
      (some e, (batchLoop ctx f G D 0 ⟨Context.Background, w.table⟩ (loopStart w)).2.2) := by
  simp only [BatchAddDeviceToMulticastGroup, Beginx, BeginTxx, Preparex, PreparexContext, hb, hp,
    outcome_background]
  change (batchLoop ctx f G D 0 ⟨Context.Background, w.table⟩ (loopStart w)).1 = some e at hl
  change (match batchLoop ctx f G D 0 ⟨Context.Background, w.table⟩ (loopStart w) with
    | (some e, _, w) => (some e, w)
    | (none, tx, w) => _) = _
  rcases hres : batchLoop ctx f G D 0 ⟨Context.Background, w.table⟩ (loopStart w) with ⟨r, tx, w1⟩
  rw [hres] at hl
  simp only at hl
  subst hl
  rfl

/-! ## The batch -/

/-- C1: if the batch fails because the upsert of the `k`-th device key fails with `e`
(begin, prepare and the upserts before it having succeeded), the call returns
`handlePSQLError e "insert or update error"` and the table is the table before
the call, whatever `stmt.Close()` and `tx.Rollback()` return. -/
theorem batch_upsert_failure_atomic (ctx : Context) (f : Faults) (D : List EUI64) (G : UUID)
    (w : World) (k : Nat) (e : PSQLErr) (hb : f.beginx = none) (hp : f.preparex = none)
    (hk : k < D.length) (hlt : ∀ j < k, f.stmt_exec j = none) (he : f.stmt_exec k = some e) :
    (BatchAddDeviceToMulticastGroup ctx f D G w).1 =
        some (handlePSQLError e "insert or update error") ∧
      (BatchAddDeviceToMulticastGroup ctx f D G w).2.table = w.table := by
  have hl := batchLoop_fail ctx f G D 0 k ⟨Context.Background, w.table⟩ (loopStart w) e hk
    (by simpa using hlt) (by simpa using he)
  rw [batch_of_loop_fail ctx f D G w hb hp _ hl]
  exact ⟨rfl, by rw [batchLoop_table]; rfl⟩

theorem batch_upsert_failure_atomic_witness :
    (BatchAddDeviceToMulticastGroup ctxLive faultsSecondUpsert [1, 2, 3] 7 worldOne).1 =
        some (StorageError.Storage "insert or update error" (PSQLErr.other 3)) ∧
      (BatchAddDeviceToMulticastGroup ctxLive faultsSecondUpsert [1, 2, 3] 7 worldOne).2.table =
        [⟨5, 8, 0⟩] :=
  batch_upsert_failure_atomic ctxLive faultsSecondUpsert [1, 2, 3] 7 worldOne 1 (PSQLErr.other 3)
    rfl rfl (by decide) (by decide) rfl

/-- C2: when no storage step fails, two batches in a row over the same keys and
group both return no error; the key columns of the table after the second are
those after the first, row for row, so the set of pairs is the same; and on a
table that satisfies the unique constraint no pair occurs in more than one row. -/
theorem batch_twice_idempotent (ctx : Context) (f1 f2 : Faults) (D : List EUI64) (G : UUID)
    (w : World) (h1 : NoFault f1 D.length) (h2 : NoFault f2 D.length) (hu : Unique w.table) :
    (BatchAddDeviceToMulticastGroup ctx f1 D G w).1 = none ∧
      (BatchAddDeviceToMulticastGroup ctx f2 D G
        (BatchAddDeviceToMulticastGroup ctx f1 D G w).2).1 = none ∧
      keys (BatchAddDeviceToMulticastGroup ctx f2 D G
        (BatchAddDeviceToMulticastGroup ctx f1 D G w).2).2.table =
        keys (BatchAddDeviceToMulticastGroup ctx f1 D G w).2.table ∧
      (∀ p, p ∈ keys (BatchAddDeviceToMulticastGroup ctx f2 D G
          (BatchAddDeviceToMulticastGroup ctx f1 D G w).2).2.table ↔
        p ∈ keys (BatchAddDeviceToMulticastGroup ctx f1 D G w).2.table) ∧
      Unique (BatchAddDeviceToMulticastGroup ctx f2 D G
        (BatchAddDeviceToMulticastGroup ctx f1 D G w).2).2.table := by
  rw [batch_ok ctx f1 D G w h1, batch_ok ctx f2 D G _ h2]
  have hk : keys (upsertAll G D (w.clock + 2 * D.length) (upsertAll G D w.clock w.table)) =
      keys (upsertAll G D w.clock w.table) := by
    rw [keys_upsertAll]
    apply addKeys_of_mem
    intro d hd
    rw [keys_upsertAll, mem_addKeys]
    exact Or.inr ⟨rfl, hd⟩
  refine ⟨rfl, rfl, hk, fun p => by rw [hk], ?_⟩
  show (keys _).Nodup
  rw [hk, keys_upsertAll]
  exact nodup_addKeys G D _ hu

theorem batch_twice_idempotent_witness :
    NoFault Faults.ok 2 ∧ Unique worldOne.table ∧
      keys (BatchAddDeviceToMulticastGroup ctxLive Faults.ok [1, 2] 7
        (BatchAddDeviceToMulticastGroup ctxLive Faults.ok [1, 2] 7 worldOne).2).2.table =
        keys (BatchAddDeviceToMulticastGroup ctxLive Faults.ok [1, 2] 7 worldOne).2.table :=
  ⟨by decide, by decide,
    (batch_twice_idempotent ctxLive Faults.ok Faults.ok [1, 2] 7 worldOne (by decide) (by decide)
      (by decide)).2.2.1⟩

/-- C3 fails as stated: on an empty table, the batch `[1, 2, 1]` for group 7
returns an error, and leaves no row, when `db.Beginx()` fails. -/
theorem batch_duplicates_begin_failure :
    (BatchAddDeviceToMulticastGroup ctxLive faultsBegin [1, 2, 1] 7 World.empty).1 =
        some (StorageError.Storage "Beginx error" (PSQLErr.other 1)) ∧
      (BatchAddDeviceToMulticastGroup ctxLive faultsBegin [1, 2, 1] 7 World.empty).2.table = [] := by
  decide

/-- C3 (amended): when no storage step fails, a batch over any device keys,
repeated or not, on a table with no rows for `G` returns no error and leaves
exactly one row `(d, G)` for each `d` in `D` and no row `(d, G)` for any other `d`. -/
theorem batch_duplicates_once (ctx : Context) (f : Faults) (D : List EUI64) (G : UUID)
    (w : World) (h : NoFault f D.length) (hG : ∀ r ∈ w.table, r.multicast_group_id ≠ G) :
    (BatchAddDeviceToMulticastGroup ctx f D G w).1 = none ∧
      ∀ d, (BatchAddDeviceToMulticastGroup ctx f D G w).2.table.countP (sameKey d G) =
        if d ∈ D then 1 else 0 := by
  rw [batch_ok ctx f D G w h]
  refine ⟨rfl, fun d => ?_⟩
  show (upsertAll G D w.clock w.table).countP (sameKey d G) = _
  rw [countP_sameKey, keys_upsertAll, count_addKeys]
  have h0 : (keys w.table).count (d, G) = 0 := by
    apply List.count_eq_zero_of_not_mem
    intro hm
    simp only [keys, List.mem_map, Prod.mk.injEq] at hm
    obtain ⟨r, hr, -, hg⟩ := hm
    exact hG r hr hg
  rw [h0]
  rfl

theorem batch_duplicates_once_witness :
    NoFault Faults.ok 3 ∧ (∀ r ∈ worldOne.table, r.multicast_group_id ≠ 7) ∧
      (BatchAddDeviceToMulticastGroup ctxLive Faults.ok [1, 2, 1] 7 worldOne).1 = none ∧
      keys (BatchAddDeviceToMulticastGroup ctxLive Faults.ok [1, 2, 1] 7 worldOne).2.table =
        [(5, 8), (1, 7), (2, 7)] ∧
      ∀ d, (BatchAddDeviceToMulticastGroup ctxLive Faults.ok [1, 2, 1] 7 worldOne).2.table.countP
        (sameKey d 7) = if d ∈ [1, 2, 1] then 1 else 0 :=
  ⟨by decide, by decide,
    (batch_duplicates_once ctxLive Faults.ok [1, 2, 1] 7 worldOne (by decide) (by decide)).1,
    by decide,
    (batch_duplicates_once ctxLive Faults.ok [1, 2, 1] 7 worldOne (by decide) (by decide)).2⟩

/-- C4: with an empty sequence of device keys, when begin, prepare, statement
close and commit succeed, the batch returns no error, leaves the table and the
log as they were, and the calls it makes are begin, prepare, close, commit: the
commit is still performed. -/
theorem batch_empty (ctx : Context) (f : Faults) (G : UUID) (w : World)
    (hb : f.beginx = none) (hp : f.preparex = none) (hc : f.stmt_close = none)
    (hm : f.commit = none) :
    (BatchAddDeviceToMulticastGroup ctx f [] G w).1 = none ∧
      (BatchAddDeviceToMulticastGroup ctx f [] G w).2.table = w.table ∧
      (BatchAddDeviceToMulticastGroup ctx f [] G w).2.log = w.log ∧
      (BatchAddDeviceToMulticastGroup ctx f [] G w).2.calls =
        w.calls ++ [⟨Op.Beginx, Context.Background⟩, ⟨Op.Preparex, Context.Background⟩,
          ⟨Op.StmtClose, Context.Background⟩, ⟨Op.Commit, Context.Background⟩] := by
  rw [batch_ok ctx f [] G w ⟨hb, hp, by simp, hc, hm⟩]
  simp [upsertAll, batchLog]

theorem batch_empty_witness :
    (BatchAddDeviceToMulticastGroup ctxLive Faults.ok [] 7 worldOne).1 = none ∧
      (BatchAddDeviceToMulticastGroup ctxLive Faults.ok [] 7 worldOne).2.table = worldOne.table ∧
      (BatchAddDeviceToMulticastGroup ctxLive Faults.ok [] 7 worldOne).2.log = worldOne.log ∧
      (BatchAddDeviceToMulticastGroup ctxLive Faults.ok [] 7 worldOne).2.calls =
        worldOne.calls ++ [⟨Op.Beginx, Context.Background⟩, ⟨Op.Preparex, Context.Background⟩,
          ⟨Op.StmtClose, Context.Background⟩, ⟨Op.Commit, Context.Background⟩] :=
  batch_empty ctxLive Faults.ok 7 worldOne rfl rfl rfl rfl

/-- C9: when the prepare, an upsert, the statement close or the commit of a batch
fails with `e`, the last call the batch makes is `tx.Rollback()`, the error it
returns is `handlePSQLError e` with the label of the failed step, and the whole
result is the same whatever the rollback itself returns. -/
theorem batch_rollback_discipline (ctx : Context) (f : Faults) (D : List EUI64) (G : UUID)
    (w : World) (s : Step) (e : PSQLErr) (h : FailsAt f D.length s e) :
    (BatchAddDeviceToMulticastGroup ctx f D G w).1 = some (handlePSQLError e s.label) ∧
      (BatchAddDeviceToMulticastGroup ctx f D G w).2.calls.getLast? =
        some ⟨Op.Rollback, Context.Background⟩ ∧
      ∀ r, BatchAddDeviceToMulticastGroup ctx (f.withRollback r) D G w =
        BatchAddDeviceToMulticastGroup ctx f D G w := by
  refine ⟨?_, ?_, fun r => batch_withRollback ctx f r D G w⟩
  · obtain ⟨hb, hs⟩ := h
    cases s with
    | prepare =>
      simp only at hs
      simp [BatchAddDeviceToMulticastGroup, Beginx, BeginTxx, Preparex, PreparexContext, hb, hs,
        Step.label]
    | exec k =>
      obtain ⟨hp, hk, hlt, he⟩ := hs
      have hl := batchLoop_fail ctx f G D 0 k ⟨Context.Background, w.table⟩ (loopStart w) e hk
        (by simpa using hlt) (by simpa using he)
      rw [batch_of_loop_fail ctx f D G w hb hp _ hl]
      rfl
    | close =>
      obtain ⟨hp, he, hc⟩ := hs
      have hl := batchLoop_ok ctx f G D 0 ⟨Context.Background, w.table⟩ (loopStart w)
        (by simpa using he)
      simp only [loopStart, record, List.append_assoc, List.singleton_append] at hl
      simp [BatchAddDeviceToMulticastGroup, Beginx, BeginTxx, Preparex, PreparexContext, hb, hp,
        hl, Stmt_Close, hc, record, Step.label]
    | commit =>
      obtain ⟨hp, he, hc, hm⟩ := hs
      have hl := batchLoop_ok ctx f G D 0 ⟨Context.Background, w.table⟩ (loopStart w)
        (by simpa using he)
      simp only [loopStart, record, List.append_assoc, List.singleton_append] at hl
      simp [BatchAddDeviceToMulticastGroup, Beginx, BeginTxx, Preparex, PreparexContext, hb, hp,
        hl, Stmt_Close, hc, Commit, hm, record, Step.label]
  · obtain ⟨hb, hs⟩ := h
    cases s with
    | prepare =>
      simp only at hs
      simp [BatchAddDeviceToMulticastGroup, Beginx, BeginTxx, Preparex, PreparexContext, hb, hs,
        Rollback, record]
    | exec k =>
      obtain ⟨hp, hk, hlt, he⟩ := hs
      have hl := batchLoop_fail ctx f G D 0 k ⟨Context.Background, w.table⟩ (loopStart w) e hk
        (by simpa using hlt) (by simpa using he)
      rw [batch_of_loop_fail ctx f D G w hb hp _ hl]
      exact batchLoop_last_call ctx f G D 0 ⟨Context.Background, w.table⟩ (loopStart w)
        (by rw [hl]; simp)
    | close =>
      obtain ⟨hp, he, hc⟩ := hs
      have hl := batchLoop_ok ctx f G D 0 ⟨Context.Background, w.table⟩ (loopStart w)
        (by simpa using he)
      simp only [loopStart, record, List.append_assoc, List.singleton_append] at hl
      simp only [BatchAddDeviceToMulticastGroup, Beginx, BeginTxx, Preparex, PreparexContext, hb,
        hp, hl, Stmt_Close, hc, record, Rollback, outcome_background, List.append_assoc,
        List.singleton_append, List.cons_append, List.nil_append]
      exact getLast?_of_snoc _ _
        ⟨w.calls ++ ⟨Op.Beginx, Context.Background⟩ :: ⟨Op.Preparex, Context.Background⟩ ::
          (List.replicate D.length ⟨Op.StmtExec, Context.Background⟩ ++
            [⟨Op.StmtClose, Context.Background⟩]), by simp⟩
    | commit =>
      obtain ⟨hp, he, hc, hm⟩ := hs
      have hl := batchLoop_ok ctx f G D 0 ⟨Context.Background, w.table⟩ (loopStart w)
        (by simpa using he)
      simp only [loopStart, record, List.append_assoc, List.singleton_append] at hl
      simp only [BatchAddDeviceToMulticastGroup, Beginx, BeginTxx, Preparex, PreparexContext, hb,
        hp, hl, Stmt_Close, hc, Commit, hm, record, Rollback, outcome_background,
        List.append_assoc, List.singleton_append, List.cons_append, List.nil_append]
      exact getLast?_of_snoc _ _
        ⟨w.calls ++ ⟨Op.Beginx, Context.Background⟩ :: ⟨Op.Preparex, Context.Background⟩ ::
          (List.replicate D.length ⟨Op.StmtExec, Context.Background⟩ ++
            [⟨Op.StmtClose, Context.Background⟩, ⟨Op.Commit, Context.Background⟩]), by simp⟩

theorem batch_rollback_discipline_witness :
    FailsAt faultsCommit 2 Step.commit (PSQLErr.other 4) ∧
      (BatchAddDeviceToMulticastGroup ctxLive faultsCommit [1, 2] 7 worldOne).1 =
        some (StorageError.Storage "tx commit error" (PSQLErr.other 4)) :=
  ⟨by decide,
    (batch_rollback_discipline ctxLive faultsCommit [1, 2] 7 worldOne Step.commit
      (PSQLErr.other 4) (by decide)).1⟩

/-! ## Single-row operations -/

theorem add_eq (ctx : Context) (f : Faults) (d : EUI64) (g : UUID) (w : World) :
    AddDeviceToMulticastGroup ctx f d g w =
      match f.exec with
      | some e => (some (handlePSQLError e "insert error"), record Op.Exec Context.Background (tick w))
      | none =>
        if w.table.any (sameKey d g) then
          (some StorageError.Conflict, record Op.Exec Context.Background (tick w))
        else
          (none, logInfo ⟨d, g, ctx.ctx_id, "device added to multicast-group"⟩
            { record Op.Exec Context.Background (tick w) with
              table := w.table ++ [⟨d, g, w.clock⟩] }) := by
  cases he : f.exec with
  | some e => simp [AddDeviceToMulticastGroup, Exec, ExecContext, he]
  | none =>
    by_cases h : w.table.any (sameKey d g) = true
    · simp [AddDeviceToMulticastGroup, Exec, ExecContext, he, Statement.run, sqlInsert, h, tick,
        record, handlePSQLError]
    · simp [AddDeviceToMulticastGroup, Exec, ExecContext, he, Statement.run, sqlInsert, h, tick,
        record]

theorem add_ok_inv (ctx : Context) (f : Faults) (d : EUI64) (g : UUID) (w : World)
    (h : (AddDeviceToMulticastGroup ctx f d g w).1 = none) :
    w.table.any (sameKey d g) = false ∧
      (AddDeviceToMulticastGroup ctx f d g w).2.table = w.table ++ [⟨d, g, w.clock⟩] := by
  rw [add_eq] at h ⊢
  cases he : f.exec with
  | some e => simp [he] at h
  | none =>
    by_cases ha : w.table.any (sameKey d g) = true
    · simp [he, ha] at h
    · simp only [he, ha] at h ⊢
      exact ⟨by simp [ha], rfl⟩

theorem remove_eq (ctx : Context) (f : Faults) (d : EUI64) (g : UUID) (w : World)
    (he : f.exec = none) (hr : f.rows_affected = none) :
    RemoveDeviceFromMulticastGroup ctx f d g w =
      if w.table.countP (sameKey d g) = 0 then
        (some ErrDoesNotExist,
          { record Op.Exec Context.Background w with table := sqlDelete w.table d g })
      else
        (none, logInfo ⟨d, g, ctx.ctx_id, "device removed from multicast-group"⟩
          { record Op.Exec Context.Background w with table := sqlDelete w.table d g }) := by
  simp [RemoveDeviceFromMulticastGroup, Exec, ExecContext, he, hr, RowsAffected, Statement.run,
    record]

theorem sqlDelete_of_no_match (t : List Row) (d : EUI64) (g : UUID)
    (h : ∀ r ∈ t, sameKey d g r = false) : sqlDelete t d g = t := by
  unfold sqlDelete
  rw [List.filter_eq_self]
  intro r hr
  simp [h r hr]

theorem sqlDelete_no_match (t : List Row) (d : EUI64) (g : UUID) :
    ∀ r ∈ sqlDelete t d g, sameKey d g r = false := by
  intro r hr
  unfold sqlDelete at hr
  simpa using (List.mem_filter.1 hr).2

theorem remove_ok_inv (ctx : Context) (f : Faults) (d : EUI64) (g : UUID) (w : World)
    (h : (RemoveDeviceFromMulticastGroup ctx f d g w).1 = none) :
    (RemoveDeviceFromMulticastGroup ctx f d g w).2.table = sqlDelete w.table d g := by
  cases he : f.exec with
  | some e =>
    simp [RemoveDeviceFromMulticastGroup, Exec, ExecContext, he] at h
  | none =>
    cases hr : f.rows_affected with
    | some e =>
      simp [RemoveDeviceFromMulticastGroup, Exec, ExecContext, he, hr, RowsAffected,
        Statement.run] at h
    | none =>
      rw [remove_eq ctx f d g w he hr]
      split <;> rfl

theorem remove_no_match_ne_none (ctx : Context) (f : Faults) (d : EUI64) (g : UUID) (w : World)
    (h : ∀ r ∈ w.table, sameKey d g r = false) :
    (RemoveDeviceFromMulticastGroup ctx f d g w).1 ≠ none := by
  have hc : w.table.countP (sameKey d g) = 0 := by
    rw [List.countP_eq_zero]
    intro r hr
    simp [h r hr]
  cases he : f.exec with
  | some e =>
    simp [RemoveDeviceFromMulticastGroup, Exec, ExecContext, he]
  | none =>
    cases hr : f.rows_affected with
    | some e =>
      simp [RemoveDeviceFromMulticastGroup, Exec, ExecContext, he, hr, RowsAffected,
        Statement.run]
    | none =>
      rw [remove_eq ctx f d g w he hr, if_pos hc]
      simp

theorem remove_no_match (ctx : Context) (f : Faults) (d : EUI64) (g : UUID) (w : World)
    (he : f.exec = none) (hr : f.rows_affected = none)
    (h : ∀ r ∈ w.table, sameKey d g r = false) :
    (RemoveDeviceFromMulticastGroup ctx f d g w).1 = some ErrDoesNotExist := by
  have hc : w.table.countP (sameKey d g) = 0 := by
    rw [List.countP_eq_zero]
    intro r hr
    simp [h r hr]
  rw [remove_eq ctx f d g w he hr, if_pos hc]

theorem getGroups_eq (ctx : Context) (f : Faults) (d : EUI64) (w : World) :
    (GetMulticastGroupsForDevEUI ctx f d w).1 =
      match f.select with
      | some e => ([], some (handlePSQLError e "select error"))
      | none => ((w.table.filter fun r => r.dev_eui == d).map (fun r => r.multicast_group_id), none) := by
  cases hs : f.select <;>
    simp [GetMulticastGroupsForDevEUI, Select, SelectContext, hs, record]

theorem getDevEUIs_eq (ctx : Context) (f : Faults) (g : UUID) (w : World) :
    (GetDevEUIsForMulticastGroup ctx f g w).1 =
      match f.select with
      | some e => ([], some (handlePSQLError e "select error"))
      | none => ((w.table.filter fun r => r.multicast_group_id == g).map (fun r => r.dev_eui), none) := by
  cases hs : f.select <;>
    simp [GetDevEUIsForMulticastGroup, Select, SelectContext, hs, record]

/-- C5: when the delete statement and the affected-row query succeed, the removal
returns `ErrDoesNotExist` exactly when no row matches `(d, g)`; in that case the
table and the log are as before; and a removal that matches no row never returns
success. -/
theorem remove_notfound_iff (ctx : Context) (f : Faults) (d : EUI64) (g : UUID) (w : World)
    (he : f.exec = none) (hr : f.rows_affected = none) :
    ((RemoveDeviceFromMulticastGroup ctx f d g w).1 = some ErrDoesNotExist ↔
        ∀ r ∈ w.table, sameKey d g r = false) ∧
      ((∀ r ∈ w.table, sameKey d g r = false) →
        (RemoveDeviceFromMulticastGroup ctx f d g w).2.table = w.table ∧
          (RemoveDeviceFromMulticastGroup ctx f d g w).2.log = w.log) ∧
      ((∀ r ∈ w.table, sameKey d g r = false) →
        (RemoveDeviceFromMulticastGroup ctx f d g w).1 ≠ none) := by
  have hc : w.table.countP (sameKey d g) = 0 ↔ ∀ r ∈ w.table, sameKey d g r = false := by
    rw [List.countP_eq_zero]
    simp
  refine ⟨?_, ?_, remove_no_match_ne_none ctx f d g w⟩
  · rw [remove_eq ctx f d g w he hr, ← hc]
    by_cases h0 : w.table.countP (sameKey d g) = 0
    · simp [h0]
    · simp [h0]
  · intro h
    rw [remove_eq ctx f d g w he hr, if_pos (hc.2 h)]
    exact ⟨sqlDelete_of_no_match _ _ _ h, rfl⟩

theorem remove_notfound_iff_witness :
    (RemoveDeviceFromMulticastGroup ctxLive Faults.ok 2 7 worldMember).1 = some ErrDoesNotExist ∧
      (RemoveDeviceFromMulticastGroup ctxLive Faults.ok 1 7 worldMember).1 = none :=
  ⟨(remove_notfound_iff ctxLive Faults.ok 2 7 worldMember rfl rfl).1.2 (by decide),
    by decide⟩

/-- C6 fails as stated: the first add of `(1, 7)` succeeds, and the second returns a
Storage error, not Conflict, when its insert statement fails on the connection. -/
theorem add_twice_connection_failure :
    (AddDeviceToMulticastGroup ctxLive Faults.ok 1 7 World.empty).1 = none ∧
      (AddDeviceToMulticastGroup ctxLive faultsExec 1 7
        (AddDeviceToMulticastGroup ctxLive Faults.ok 1 7 World.empty).2).1 =
        some (StorageError.Storage "insert error" (PSQLErr.other 2)) ∧
      (AddDeviceToMulticastGroup ctxLive faultsExec 1 7
        (AddDeviceToMulticastGroup ctxLive Faults.ok 1 7 World.empty).2).1 ≠
        some StorageError.Conflict := by
  decide

/-- C6 (amended): when a first add of `(d, g)` succeeds, a second add right after it
always returns an error and the table still holds exactly one row for `(d, g)`.
When the insert statement of the second call does not fail on the connection, the
error is the engine's unique violation passed through `handlePSQLError` with the
label "insert error", which is Conflict; when it fails on the connection with
`e`, the error is `handlePSQLError e "insert error"`. -/
theorem add_twice_conflict (ctx : Context) (f1 f2 : Faults) (d : EUI64) (g : UUID) (w : World)
    (h1 : (AddDeviceToMulticastGroup ctx f1 d g w).1 = none) :
    (AddDeviceToMulticastGroup ctx f2 d g (AddDeviceToMulticastGroup ctx f1 d g w).2).1 ≠ none ∧
      (f2.exec = none →
        (AddDeviceToMulticastGroup ctx f2 d g (AddDeviceToMulticastGroup ctx f1 d g w).2).1 =
            some (handlePSQLError PSQLErr.unique_violation "insert error") ∧
          (AddDeviceToMulticastGroup ctx f2 d g (AddDeviceToMulticastGroup ctx f1 d g w).2).1 =
            some StorageError.Conflict) ∧
      (∀ e, f2.exec = some e →
        (AddDeviceToMulticastGroup ctx f2 d g (AddDeviceToMulticastGroup ctx f1 d g w).2).1 =
          some (handlePSQLError e "insert error")) ∧
      (AddDeviceToMulticastGroup ctx f2 d g
        (AddDeviceToMulticastGroup ctx f1 d g w).2).2.table.countP (sameKey d g) = 1 := by
  obtain ⟨hno, ht⟩ := add_ok_inv ctx f1 d g w h1
  have hany : (AddDeviceToMulticastGroup ctx f1 d g w).2.table.any (sameKey d g) = true := by
    rw [ht]
    simp [sameKey]
  have hcount : (AddDeviceToMulticastGroup ctx f1 d g w).2.table.countP (sameKey d g) = 1 := by
    rw [ht, List.countP_append]
    have h0 : w.table.countP (sameKey d g) = 0 := by
      rw [List.countP_eq_zero]
      intro r hr
      have := List.any_eq_false.1 hno r hr
      simpa using this
    rw [h0]
    simp [sameKey]
  rw [add_eq ctx f2 d g]
  cases he : f2.exec with
  | some e =>
    refine ⟨by simp, by simp, ?_, hcount⟩
    intro e2 h2
    cases h2
    rfl
  | none =>
    refine ⟨by simp [hany], fun _ => ⟨by simp [hany, handlePSQLError], by simp [hany]⟩,
      by simp, ?_⟩
    simpa [hany] using hcount

theorem add_twice_conflict_witness :
    (AddDeviceToMulticastGroup ctxLive Faults.ok 1 7 worldOne).1 = none ∧
      (AddDeviceToMulticastGroup ctxLive Faults.ok 1 7
        (AddDeviceToMulticastGroup ctxLive Faults.ok 1 7 worldOne).2).1 =
        some StorageError.Conflict ∧
      (AddDeviceToMulticastGroup ctxLive faultsExec 1 7
        (AddDeviceToMulticastGroup ctxLive Faults.ok 1 7 worldOne).2).1 =
        some (handlePSQLError (PSQLErr.other 2) "insert error") :=
  ⟨by decide,
    ((add_twice_conflict ctxLive Faults.ok Faults.ok 1 7 worldOne (by decide)).2.1 rfl).2,
    (add_twice_conflict ctxLive Faults.ok faultsExec 1 7 worldOne (by decide)).2.2.1
      (PSQLErr.other 2) rfl⟩

/-- C7 fails as stated: the add of `(1, 7)` succeeds, and the lookups that follow
return no key at all when their query fails on the connection. -/
theorem add_then_query_failure :
    (AddDeviceToMulticastGroup ctxLive Faults.ok 1 7 World.empty).1 = none ∧
      7 ∉ (GetMulticastGroupsForDevEUI ctxLive faultsSelect 1
        (AddDeviceToMulticastGroup ctxLive Faults.ok 1 7 World.empty).2).1.1 ∧
      1 ∉ (GetDevEUIsForMulticastGroup ctxLive faultsSelect 7
        (AddDeviceToMulticastGroup ctxLive Faults.ok 1 7 World.empty).2).1.1 := by
  decide

/-- C7 (amended): after an add of `(d, g)` returns no error, each of the two lookups
whose query does not fail returns no error and a sequence that contains the
other key: `GetMulticastGroupsForDevEUI d` contains `g` and
`GetDevEUIsForMulticastGroup g` contains `d`. -/
theorem add_then_query (ctx : Context) (f f2 f3 : Faults) (d : EUI64) (g : UUID) (w : World)
    (h : (AddDeviceToMulticastGroup ctx f d g w).1 = none) (h2 : f2.select = none)
    (h3 : f3.select = none) :
    ((GetMulticastGroupsForDevEUI ctx f2 d (AddDeviceToMulticastGroup ctx f d g w).2).1.2 = none ∧
        g ∈ (GetMulticastGroupsForDevEUI ctx f2 d (AddDeviceToMulticastGroup ctx f d g w).2).1.1) ∧
      ((GetDevEUIsForMulticastGroup ctx f3 g (AddDeviceToMulticastGroup ctx f d g w).2).1.2 = none ∧
        d ∈ (GetDevEUIsForMulticastGroup ctx f3 g (AddDeviceToMulticastGroup ctx f d g w).2).1.1) := by
  obtain ⟨-, ht⟩ := add_ok_inv ctx f d g w h
  rw [getGroups_eq, getDevEUIs_eq, h2, h3, ht]
  simp

theorem add_then_query_witness :
    (AddDeviceToMulticastGroup ctxLive Faults.ok 1 7 worldOne).1 = none ∧
      7 ∈ (GetMulticastGroupsForDevEUI ctxLive Faults.ok 1
        (AddDeviceToMulticastGroup ctxLive Faults.ok 1 7 worldOne).2).1.1 ∧
      1 ∈ (GetDevEUIsForMulticastGroup ctxLive Faults.ok 7
        (AddDeviceToMulticastGroup ctxLive Faults.ok 1 7 worldOne).2).1.1 :=
  ⟨by decide,
    (add_then_query ctxLive Faults.ok Faults.ok Faults.ok 1 7 worldOne (by decide) rfl rfl).1.2,
    (add_then_query ctxLive Faults.ok Faults.ok Faults.ok 1 7 worldOne (by decide) rfl rfl).2.2⟩

/-- C8 fails as stated: the removal of `(1, 7)` succeeds, and the removal repeated
right after it returns a Storage error, not `ErrDoesNotExist`, when its delete
statement fails on the connection. -/
theorem remove_twice_connection_failure :
    (RemoveDeviceFromMulticastGroup ctxLive Faults.ok 1 7 worldMember).1 = none ∧
      (RemoveDeviceFromMulticastGroup ctxLive faultsExec 1 7
        (RemoveDeviceFromMulticastGroup ctxLive Faults.ok 1 7 worldMember).2).1 =
        some (StorageError.Storage "delete error" (PSQLErr.other 2)) ∧
      (RemoveDeviceFromMulticastGroup ctxLive faultsExec 1 7
        (RemoveDeviceFromMulticastGroup ctxLive Faults.ok 1 7 worldMember).2).1 ≠
        some ErrDoesNotExist := by
  decide

/-- C8 (amended): after a removal of `(d, g)` returns no error, no row matches
`(d, g)`, `GetMulticastGroupsForDevEUI d` does not contain `g`, and a removal
repeated right after never succeeds: it returns `ErrDoesNotExist` whenever its
delete statement and affected-row query do not fail. -/
theorem remove_then_query (ctx : Context) (f f2 f3 : Faults) (d : EUI64) (g : UUID) (w : World)
    (h : (RemoveDeviceFromMulticastGroup ctx f d g w).1 = none) :
    (∀ r ∈ (RemoveDeviceFromMulticastGroup ctx f d g w).2.table, sameKey d g r = false) ∧
      g ∉ (GetMulticastGroupsForDevEUI ctx f2 d
        (RemoveDeviceFromMulticastGroup ctx f d g w).2).1.1 ∧
      (RemoveDeviceFromMulticastGroup ctx f3 d g
        (RemoveDeviceFromMulticastGroup ctx f d g w).2).1 ≠ none ∧
      (f3.exec = none → f3.rows_affected = none →
        (RemoveDeviceFromMulticastGroup ctx f3 d g
          (RemoveDeviceFromMulticastGroup ctx f d g w).2).1 = some ErrDoesNotExist) := by
  have ht := remove_ok_inv ctx f d g w h
  have hno : ∀ r ∈ (RemoveDeviceFromMulticastGroup ctx f d g w).2.table,
      sameKey d g r = false := by
    rw [ht]
    exact sqlDelete_no_match w.table d g
  refine ⟨hno, ?_, remove_no_match_ne_none ctx f3 d g _ hno, ?_⟩
  · rw [getGroups_eq]
    cases hs : f2.select with
    | some e => simp
    | none =>
      simp only [List.mem_map, List.mem_filter, not_exists, not_and]
      intro r hr hg
      have := hno r hr.1
      simp only [sameKey, Bool.and_eq_false_imp, beq_iff_eq] at this
      have hd : r.dev_eui = d := by simpa using hr.2
      have hne : ¬ r.multicast_group_id = g := by simpa using this hd
      exact hne hg
  · intro he hr
    exact remove_no_match ctx f3 d g _ he hr hno

theorem remove_then_query_witness :
    (RemoveDeviceFromMulticastGroup ctxLive Faults.ok 1 7 worldMember).1 = none ∧
      7 ∉ (GetMulticastGroupsForDevEUI ctxLive Faults.ok 1
        (RemoveDeviceFromMulticastGroup ctxLive Faults.ok 1 7 worldMember).2).1.1 ∧
      (RemoveDeviceFromMulticastGroup ctxLive Faults.ok 1 7
        (RemoveDeviceFromMulticastGroup ctxLive Faults.ok 1 7 worldMember).2).1 =
        some ErrDoesNotExist :=
  ⟨by decide,
    (remove_then_query ctxLive Faults.ok Faults.ok Faults.ok 1 7 worldMember (by decide)).2.1,
    (remove_then_query ctxLive Faults.ok Faults.ok Faults.ok 1 7 worldMember (by decide)).2.2.2
      rfl rfl⟩

/-! ## The caller's context -/

theorem batchLoop_live (ctx : Context) (f : Faults) (G : UUID) (D : List EUI64) (i : Nat)
    (tx : Tx) (w : World) :
    batchLoop ctx f G D i tx w = batchLoop ⟨ctx.ctx_id, false⟩ f G D i tx w := by
  induction D generalizing i tx w with
  | nil => rfl
  | cons d ds ih =>
    cases hi : f.stmt_exec i with
    | some e => simp [batchLoop, Stmt_Exec, Stmt_ExecContext, hi]
    | none =>
      simp only [batchLoop, Stmt_Exec, Stmt_ExecContext, hi, outcome_background, Statement.run]
      rw [ih]

theorem batchLoop_calls (ctx : Context) (f : Faults) (G : UUID) (D : List EUI64) (i : Nat)
    (tx : Tx) (w : World) (htx : tx.ctx = Context.Background) :
    ∃ new, (batchLoop ctx f G D i tx w).2.2.calls = w.calls ++ new ∧
      ∀ c ∈ new, c.ctx = Context.Background := by
  induction D generalizing i tx w with
  | nil => exact ⟨[], by simp [batchLoop], by simp⟩
  | cons d ds ih =>
    cases hi : f.stmt_exec i with
    | some e =>
      refine ⟨[⟨Op.StmtExec, Context.Background⟩, ⟨Op.StmtClose, Context.Background⟩,
        ⟨Op.Rollback, Context.Background⟩], ?_, by simp⟩
      simp [batchLoop, Stmt_Exec, Stmt_ExecContext, hi, Stmt_Close, Rollback, record, tick, htx]
    | none =>
      simp only [batchLoop, Stmt_Exec, Stmt_ExecContext, hi, outcome_background, Statement.run]
      obtain ⟨new, hn, hbg⟩ := ih (i + 1) { tx with rows := sqlUpsert tx.rows d G w.clock (tick w).clock }
        (logInfo ⟨d, G, ctx.ctx_id, "device added to multicast-group"⟩
          (record Op.StmtExec Context.Background (tick (tick w)))) htx
      refine ⟨⟨Op.StmtExec, Context.Background⟩ :: new, ?_, ?_⟩
      · rw [hn]
        simp [logInfo, record, tick]
      · intro c hc
        rcases List.mem_cons.1 hc with rfl | hc
        · rfl
        · exact hbg c hc

theorem batch_calls (ctx : Context) (f : Faults) (D : List EUI64) (G : UUID) (w : World) :
    ∃ new, (BatchAddDeviceToMulticastGroup ctx f D G w).2.calls = w.calls ++ new ∧
      ∀ c ∈ new, c.ctx = Context.Background := by
  obtain ⟨new, hn, hbg⟩ := batchLoop_calls ctx f G D 0 ⟨Context.Background, w.table⟩
    (loopStart w) rfl
  have hctx := batchLoop_ctx ctx f G D 0 ⟨Context.Background, w.table⟩ (loopStart w)
  cases hb : f.beginx with
  | some e =>
    exact ⟨[⟨Op.Beginx, Context.Background⟩], by
      simp [BatchAddDeviceToMulticastGroup, Beginx, BeginTxx, hb, record], by simp⟩
  | none =>
    cases hp : f.preparex with
    | some e =>
      exact ⟨[⟨Op.Beginx, Context.Background⟩, ⟨Op.Preparex, Context.Background⟩,
        ⟨Op.Rollback, Context.Background⟩], by
        simp [BatchAddDeviceToMulticastGroup, Beginx, BeginTxx, Preparex, PreparexContext, hb, hp,
          Rollback, record], by simp⟩
    | none =>
      simp only [BatchAddDeviceToMulticastGroup, Beginx, BeginTxx, Preparex, PreparexContext, hb,
        hp, outcome_background]
      rw [show (record Op.Beginx Context.Background w).table = w.table from rfl]
      simp only [loopStart] at hn hctx
      rcases hres : batchLoop ctx f G D 0 ⟨Context.Background, w.table⟩
        (record Op.Preparex Context.Background (record Op.Beginx Context.Background w)) with
        ⟨r, tx, w1⟩
      rw [hres] at hn hctx
      simp only at hn hctx
      have hw : (record Op.Preparex Context.Background
          (record Op.Beginx Context.Background w)).calls =
          w.calls ++ [⟨Op.Beginx, Context.Background⟩, ⟨Op.Preparex, Context.Background⟩] := by
        simp [record]
      rw [hw] at hn
      cases r with
      | some e =>
        exact ⟨⟨Op.Beginx, Context.Background⟩ :: ⟨Op.Preparex, Context.Background⟩ :: new,
          by simp [hn], by
            intro c hc
            simp only [List.mem_cons] at hc
            rcases hc with rfl | rfl | hc
            · rfl
            · rfl
            · exact hbg c hc⟩
      | none =>
        cases hc : f.stmt_close with
        | some e =>
          refine ⟨⟨Op.Beginx, Context.Background⟩ :: ⟨Op.Preparex, Context.Background⟩ ::
            (new ++ [⟨Op.StmtClose, Context.Background⟩, ⟨Op.Rollback, Context.Background⟩]),
            by simp [Stmt_Close, hc, Rollback, record, hn, hctx], ?_⟩
          intro c hc
          simp only [List.mem_cons, List.mem_append, List.mem_singleton] at hc
          rcases hc with rfl | rfl | hc | rfl | rfl | hc
          · rfl
          · rfl
          · exact hbg c hc
          · rfl
          · rfl
          · simp at hc
        | none =>
          cases hm : f.commit with
          | some e =>
            refine ⟨⟨Op.Beginx, Context.Background⟩ :: ⟨Op.Preparex, Context.Background⟩ ::
              (new ++ [⟨Op.StmtClose, Context.Background⟩, ⟨Op.Commit, Context.Background⟩,
                ⟨Op.Rollback, Context.Background⟩]),
              by simp [Stmt_Close, hc, Commit, hm, Rollback, record, hn, hctx], ?_⟩
            intro c hc
            simp only [List.mem_cons, List.mem_append, List.mem_singleton] at hc
            rcases hc with rfl | rfl | hc | rfl | rfl | rfl | hc
            · rfl
            · rfl
            · exact hbg c hc
            · rfl
            · rfl
            · rfl
            · simp at hc
          | none =>
            refine ⟨⟨Op.Beginx, Context.Background⟩ :: ⟨Op.Preparex, Context.Background⟩ ::
              (new ++ [⟨Op.StmtClose, Context.Background⟩, ⟨Op.Commit, Context.Background⟩]),
              by simp [Stmt_Close, hc, Commit, hm, record, hn, hctx], ?_⟩
            intro c hc
            simp only [List.mem_cons, List.mem_append, List.mem_singleton] at hc
            rcases hc with rfl | rfl | hc | rfl | rfl | hc
            · rfl
            · rfl
            · exact hbg c hc
            · rfl
            · rfl
            · simp at hc

/-- C10 fails as stated: a batch invoked with a cancelled context, on a connection
that reports no failure, returns no error and establishes both memberships. -/
theorem batch_cancelled_runs_to_completion :
    ctxCancelled.done = true ∧
      (BatchAddDeviceToMulticastGroup ctxCancelled Faults.ok [1, 2] 7 World.empty).1 = none ∧
      keys (BatchAddDeviceToMulticastGroup ctxCancelled Faults.ok [1, 2] 7 World.empty).2.table =
        [(1, 7), (2, 7)] := by
  decide

/-- C10 (amended): no storage call of the five operations is given the caller's
context: every call they make runs under the background context, and each
operation returns the same result and leaves the same world with a cancelled
context as with a live context that carries the same correlation id. -/
theorem context_not_propagated (ctx : Context) (f : Faults) (D : List EUI64) (d : EUI64)
    (g : UUID) (w : World) :
    (AddDeviceToMulticastGroup ctx f d g w = AddDeviceToMulticastGroup ⟨ctx.ctx_id, false⟩ f d g w ∧
        (AddDeviceToMulticastGroup ctx f d g w).2.calls =
          w.calls ++ [⟨Op.Exec, Context.Background⟩]) ∧
      (BatchAddDeviceToMulticastGroup ctx f D g w =
          BatchAddDeviceToMulticastGroup ⟨ctx.ctx_id, false⟩ f D g w ∧
        ∃ new, (BatchAddDeviceToMulticastGroup ctx f D g w).2.calls = w.calls ++ new ∧
          ∀ c ∈ new, c.ctx = Context.Background) ∧
      (RemoveDeviceFromMulticastGroup ctx f d g w =
          RemoveDeviceFromMulticastGroup ⟨ctx.ctx_id, false⟩ f d g w ∧
        (RemoveDeviceFromMulticastGroup ctx f d g w).2.calls =
          w.calls ++ [⟨Op.Exec, Context.Background⟩]) ∧
      (GetMulticastGroupsForDevEUI ctx f d w =
          GetMulticastGroupsForDevEUI ⟨ctx.ctx_id, false⟩ f d w ∧
        (GetMulticastGroupsForDevEUI ctx f d w).2.calls =
          w.calls ++ [⟨Op.Select, Context.Background⟩]) ∧
      (GetDevEUIsForMulticastGroup ctx f g w =
          GetDevEUIsForMulticastGroup ⟨ctx.ctx_id, false⟩ f g w ∧
        (GetDevEUIsForMulticastGroup ctx f g w).2.calls =
          w.calls ++ [⟨Op.Select, Context.Background⟩]) := by
  refine ⟨⟨rfl, ?_⟩, ⟨?_, batch_calls ctx f D g w⟩, ⟨rfl, ?_⟩, ⟨rfl, ?_⟩, ⟨rfl, ?_⟩⟩
  · rw [add_eq]
    cases f.exec with
    | some e => rfl
    | none => by_cases h : w.table.any (sameKey d g) = true <;> simp [h, record, logInfo, tick]
  · simp only [BatchAddDeviceToMulticastGroup, ← batchLoop_live]
  · cases he : f.exec with
    | some e => simp [RemoveDeviceFromMulticastGroup, Exec, ExecContext, he, record]
    | none =>
      cases hr : f.rows_affected with
      | some e =>
        simp [RemoveDeviceFromMulticastGroup, Exec, ExecContext, he, hr, RowsAffected,
          Statement.run, record]
      | none =>
        rw [remove_eq ctx f d g w he hr]
        split <;> simp [record, logInfo]
  · cases hs : f.select <;>
      simp [GetMulticastGroupsForDevEUI, Select, SelectContext, hs, record]
  · cases hs : f.select <;>
      simp [GetDevEUIsForMulticastGroup, Select, SelectContext, hs, record]

end Storage
